import Mathlib

/-!
Verification of the Lucy-Richardson deconvolution library
(`LRDeconvolve.py`): a shallow embedding of its data model and
operations, plus theorems settling the specification's claims.

Modelling conventions:
* 1-D numpy arrays are `List α` for a field `α`; the plain kernel is
  embedded at `ℚ` (exact, executable), the Gaussian / L2 variants at `ℝ`
  (they use `exp` / `sqrt`).
* `scipy.signal.convolve(mode='valid')` is `convValid`: the full
  convolution restricted to the positions of complete overlap; for 1-D
  inputs scipy swaps the operands when needed, so the result length is
  `max m n - min m n + 1` and the operation itself never fails.
* numpy elementwise binary operations broadcast a length-1 operand and
  raise on any other length mismatch; `bcast` returns `none` exactly in
  the raising case.  All raised Python exceptions are modelled as `none`.
* `sklearn.metrics.mean_squared_error` validates that its two inputs
  have the same number of samples; `mseOpt` returns `none` otherwise.
* Floating point is modelled exactly; division by zero is junk (`0`)
  in the `ℚ`/`ℝ` models, which no theorem below depends on.  The L2
  variant additionally tracks NaN propagation (values `Option ℝ`,
  `none` = NaN) because `np.sqrt` of a negative number yields NaN.
-/

/-- Unary embedding of a count into the value field (used for means, so
that concrete evaluation reduces in the kernel). -/
def natCastF {α : Type} [Field α] : ℕ → α
  | 0 => 0
  | n + 1 => natCastF n + 1

/-- Full (linear) convolution of two lists, length `m + n - 1`. -/
def convFull {α : Type} [Field α] (a b : List α) : List α :=
  (List.range (a.length + b.length - 1)).map fun k =>
    ((List.range (k + 1)).map fun i => a.getD i 0 * b.getD (k - i) 0).sum

/-- `scipy.signal.convolve(a, b, mode='valid')`: the slice of the full
convolution where the two signals overlap completely. -/
def convValid {α : Type} [Field α] (a b : List α) : List α :=
  let f := convFull a b
  let d := min a.length b.length - 1
  (f.drop d).take (f.length - 2 * d)

/-- numpy broadcasting for a binary elementwise operation on 1-D arrays:
equal lengths operate pointwise, a length-1 operand is broadcast, and any
other length mismatch raises (`none`). -/
def bcast {α : Type} [Field α] (f : α → α → α) (a b : List α) : Option (List α) :=
  if a.length = b.length then some (List.zipWith f a b)
  else if b.length = 1 then some (a.map fun v => f v (b.getD 0 0))
  else if a.length = 1 then some (b.map fun v => f (a.getD 0 0) v)
  else none

/-- `np.mean(X, axis=0)`: elementwise mean of the rows of a batch. -/
def rowMean {α : Type} [Field α] (X : List (List α)) : List α :=
  match X with
  | [] => []
  | r :: rs =>
    (rs.foldl (fun acc row => List.zipWith (· + ·) acc row) r).map
      fun v => v / natCastF (rs.length + 1)

/-- `sklearn.metrics.mean_squared_error`: defined only when the inputs
have the same number of samples (otherwise sklearn raises). -/
def mseOpt {α : Type} [Field α] (a b : List α) : Option α :=
  if a.length = b.length then
    some ((List.zipWith (fun u v => (u - v) ^ 2) a b).sum / natCastF a.length)
  else none

/-- `np.mean` of a 1-D array. -/
def listMean {α : Type} [Field α] (l : List α) : α :=
  l.sum / natCastF l.length

/-- One Lucy-Richardson update, translated from the body of the loop in
`LRDeconvolve._LR` (lines 101-104): forward-convolve the estimate,
divide the measured signal by it, back-convolve with the flipped
impulse response, multiply into the estimate. -/
def lrStep {α : Type} [Field α] (m h_ O : List α) : Option (List α) :=
  match bcast (· / ·) m (convValid O h_) with
  | none => none
  | some blur => bcast (· * ·) O (convValid blur h_.reverse)

/-- The shape validations performed by `LRDeconvolve._save_iteration_stats`:
`mean_squared_error` of the current reconstruction against the measured
signal, and (when a ground truth is supplied) against the deconvolved
estimate and the reconvolved ground truth.  Only the length checks have
a numerical effect (a mismatch raises inside sklearn). -/
def statsOk {α : Type} [Field α] (h_ m : List α) (gt : Option (List α)) (O : List α) : Bool :=
  ((convValid O h_).length == m.length) &&
  (match gt with
   | none => true
   | some g =>
     (O.length == g.length) && ((convValid g h_).length == (convValid O h_).length))

/-- The iteration loop of `LRDeconvolve._LR`: each pass performs the
update and then the telemetry call (whose MSE shape validation can
raise). -/
def lrGo {α : Type} [Field α] (h_ : List α) (gt : Option (List α)) (m : List α) :
    ℕ → List α → Option (List α)
  | 0, O => some O
  | k + 1, O =>
    match lrStep m h_ O with
    | none => none
    | some O' => if statsOk h_ m gt O' then lrGo h_ gt m k O' else none

/-- `LRDeconvolve._LR`: the initial estimate is the measured signal
(`_deconvolution_guess` returns its argument); the loop runs exactly
`iterations` times; with zero iterations the final `return current_O`
raises `NameError` (`none`). -/
def lr {α : Type} [Field α] (N : ℕ) (h_ : List α) (gt : Option (List α)) (m : List α) :
    Option (List α) :=
  if N = 0 then none else lrGo h_ gt m N m

/-- The recurrence of spec §4.1, written as the claims state it: the
pure `N`-fold Lucy-Richardson update (no telemetry side channel). -/
def lrRecur {α : Type} [Field α] (m h_ : List α) : ℕ → List α → Option (List α)
  | 0, O => some O
  | k + 1, O =>
    match lrStep m h_ O with
    | none => none
    | some O' => lrRecur m h_ k O'

/-- The fitted results stored by a successful `fit` call. -/
structure FitRes (α : Type) where
  measured_y_ : List α
  deconvolved_y_ : List α
  reconvolved_y_ : List α
deriving DecidableEq

/-- `LRDeconvolve.fit`: average the batch row-wise, run `_LR`, store the
deconvolved signal and its reconvolution. -/
def fitLR {α : Type} [Field α] (h_ : List α) (gt : Option (List α)) (N : ℕ)
    (X : List (List α)) : Option (FitRes α) :=
  let m := rowMean X
  (lr N h_ gt m).map fun d => ⟨m, d, convValid d h_⟩

/-- The mutable attributes of an `LRDeconvolve` instance relevant to the
estimator state machine; `none` models an attribute that was never set
(reading it raises `AttributeError`). -/
structure LRSt where
  measured_y_ : Option (List ℚ)
  deconvolved_y_ : Option (List ℚ)
  reconvolved_y_ : Option (List ℚ)
deriving DecidableEq

/-- A freshly constructed, never-fit instance. -/
def freshLR : LRSt := ⟨none, none, none⟩

/-- `LRDeconvolve.fit` as a state transformer.  Python assignments
before an exception persist: line 88 stores `measured_y_` first, so a
failure inside `_LR` (line 89) leaves the new measured signal and the
previous fitted results in place.  The boolean reports success. -/
def fitSt (h_ : List ℚ) (gt : Option (List ℚ)) (N : ℕ) (s : LRSt) (X : List (List ℚ)) :
    LRSt × Bool :=
  let m := rowMean X
  match lr N h_ gt m with
  | none => ({ s with measured_y_ := some m }, false)
  | some d => (⟨some m, some d, some (convValid d h_)⟩, true)

/-- `LRDeconvolve.predict`: returns the stored deconvolved signal,
ignoring its argument; unfit instances raise (`none`). -/
def predictSt (s : LRSt) (_X : List (List ℚ)) : Option (List ℚ) :=
  s.deconvolved_y_

/-- `LRDeconvolve.score`: negative MSE between the stored reconvolved
signal and the row-wise mean of the test batch; unfit instances raise. -/
def scoreSt (s : LRSt) (Xt : List (List ℚ)) : Option ℚ :=
  s.reconvolved_y_.bind fun r => (mseOpt r (rowMean Xt)).map fun v => -v

/-! ### Fister (Gaussian-smoothing) regularization, over `ℝ` -/

noncomputable section

/-- `LRFisterDeconvolve._normalized_gaussian`: a Gaussian profile on the
sample points `x`, centred at `mu` with standard deviation `sig`,
divided by its own sum. -/
def normalizedGaussian (x : List ℝ) (mu sig : ℝ) : List ℝ :=
  let g := x.map fun xi => Real.exp ((-1/2) * ((xi - mu) / sig) ^ 2)
  g.map fun v => v / g.sum

/-- The iteration loop of `LRFisterDeconvolve._LR_fister` with logging
disabled (lines 187-193): the Lucy-Richardson update followed by
valid-mode convolution with the normalized Gaussian evaluated on the
impulse-response domain, centred at its mean, width `w`. -/
def lrFisterGo (x h_ : List ℝ) (w : ℝ) (m : List ℝ) : ℕ → List ℝ → Option (List ℝ)
  | 0, O => some O
  | k + 1, O =>
    match bcast (· / ·) m (convValid O h_) with
    | none => none
    | some blur =>
      match bcast (· * ·) O (convValid blur h_.reverse) with
      | none => none
      | some cur =>
        lrFisterGo x h_ w m k (convValid cur (normalizedGaussian x (listMean x) w))

/-- `LRFisterDeconvolve._LR_fister` (logging disabled): starts from the
measured signal, runs exactly `iterations` passes; zero iterations is a
`NameError`. -/
def lrFister (N : ℕ) (x h_ : List ℝ) (w : ℝ) (m : List ℝ) : Option (List ℝ) :=
  if N = 0 then none else lrFisterGo x h_ w m N m

/-- `LRFisterDeconvolve.fit`. -/
def fitFisterRes (x h_ : List ℝ) (N : ℕ) (w : ℝ) (X : List (List ℝ)) :
    Option (FitRes ℝ) :=
  let m := rowMean X
  (lrFister N x h_ w m).map fun d => ⟨m, d, convValid d h_⟩

/-- The combined per-iteration step as the spec words it: the plain
Lucy-Richardson multiplicative update, then valid-mode convolution with
the normalized Gaussian kernel. -/
def fisterClaimStep (x h_ : List ℝ) (w : ℝ) (m O : List ℝ) : Option (List ℝ) :=
  (lrStep m h_ O).map fun cur => convValid cur (normalizedGaussian x (listMean x) w)

/-- `N`-fold iteration of the spec's combined Fister step. -/
def fisterIter (x h_ : List ℝ) (w : ℝ) (m : List ℝ) : ℕ → List ℝ → Option (List ℝ)
  | 0, O => some O
  | k + 1, O =>
    match fisterClaimStep x h_ w m O with
    | none => none
    | some O' => fisterIter x h_ w m k O'

end

/-! ### L2-penalized regularization, over `ℝ` with NaN tracking

numpy float arrays silently carry NaN: `np.sqrt` of a negative number
emits a `RuntimeWarning` and returns NaN, which then propagates through
all further arithmetic.  Values are therefore `Option ℝ` with `none`
modelling a non-numeric entry (NaN; a zero divisor is also mapped to
`none` since no claim depends on signed infinities). -/

noncomputable section

/-- NaN-propagating addition. -/
def nadd (a b : Option ℝ) : Option ℝ :=
  a.bind fun u => b.map fun v => u + v

/-- NaN-propagating multiplication. -/
def nmul (a b : Option ℝ) : Option ℝ :=
  a.bind fun u => b.map fun v => u * v

/-- NaN-propagating division; a zero divisor is treated as non-numeric. -/
def ndiv (a b : Option ℝ) : Option ℝ :=
  a.bind fun u => b.bind fun v => if v = 0 then none else some (u / v)

/-- NaN-propagating sum of a list. -/
def nsum (l : List (Option ℝ)) : Option ℝ :=
  l.foldr nadd (some 0)

/-- Full convolution in the NaN-tracking domain. -/
def nconvFull (a b : List (Option ℝ)) : List (Option ℝ) :=
  (List.range (a.length + b.length - 1)).map fun k =>
    nsum ((List.range (k + 1)).map fun i =>
      nmul (a.getD i (some 0)) (b.getD (k - i) (some 0)))

/-- Valid-mode convolution in the NaN-tracking domain. -/
def nconvValid (a b : List (Option ℝ)) : List (Option ℝ) :=
  let f := nconvFull a b
  let d := min a.length b.length - 1
  (f.drop d).take (f.length - 2 * d)

/-- numpy broadcasting in the NaN-tracking domain. -/
def nbcast (f : Option ℝ → Option ℝ → Option ℝ) (a b : List (Option ℝ)) :
    Option (List (Option ℝ)) :=
  if a.length = b.length then some (List.zipWith f a b)
  else if b.length = 1 then some (a.map fun v => f v (b.getD 0 (some 0)))
  else if a.length = 1 then some (b.map fun v => f (a.getD 0 (some 0)) v)
  else none

/-- One element of the L2 closed-form correction
`(-1 + np.sqrt(1 + 2*alpha*O)) / alpha` (line 255): NaN stays NaN, a
negative radicand produces NaN (with only a warning), otherwise the real
square root is taken. -/
def l2elem (a : ℝ) (v : Option ℝ) : Option ℝ :=
  v.bind fun O =>
    if 1 + 2 * a * O < 0 then none
    else some ((-1 + Real.sqrt (1 + 2 * a * O)) / a)

/-- The plain Lucy-Richardson update in the NaN-tracking domain,
translated from `LRL2Deconvolve._LRL2` lines 251-254. -/
def nlrStep (m h_ O : List (Option ℝ)) : Option (List (Option ℝ)) :=
  match nbcast ndiv m (nconvValid O h_) with
  | none => none
  | some blur => nbcast nmul O (nconvValid blur h_.reverse)

/-- The `_LRL2` iteration loop (lines 250-256), translated inline: the
four Lucy-Richardson lines followed by the elementwise closed-form
correction, repeated. -/
def lrl2Go (a : ℝ) (m h_ : List (Option ℝ)) :
    ℕ → List (Option ℝ) → Option (List (Option ℝ))
  | 0, O => some O
  | k + 1, O =>
    match nbcast ndiv m (nconvValid O h_) with
    | none => none
    | some blur =>
      match nbcast nmul O (nconvValid blur h_.reverse) with
      | none => none
      | some cur => lrl2Go a m h_ k (cur.map (l2elem a))

/-- `LRL2Deconvolve._LRL2`: starts from the measured signal, exactly
`iterations` passes; zero iterations is a `NameError`. -/
def lrl2 (N : ℕ) (a : ℝ) (h_ m : List (Option ℝ)) : Option (List (Option ℝ)) :=
  if N = 0 then none else lrl2Go a m h_ N m

/-- `LRL2Deconvolve.fit`: average the batch, run `_LRL2`, store the
deconvolved signal and its reconvolution (as the pair returned here). -/
def fitL2 (h_ : List ℝ) (a : ℝ) (N : ℕ) (X : List (List ℝ)) :
    Option (List (Option ℝ) × List (Option ℝ)) :=
  let m := (rowMean X).map some
  (lrl2 N a (h_.map some) m).map fun d => (d, nconvValid d (h_.map some))

/-- The combined per-iteration step as the spec words it: the plain
Lucy-Richardson update, then the elementwise closed-form L2 correction. -/
def l2ClaimStep (a : ℝ) (m h_ O : List (Option ℝ)) : Option (List (Option ℝ)) :=
  (nlrStep m h_ O).map fun cur => cur.map (l2elem a)

/-- `N`-fold iteration of the spec's combined L2 step. -/
def l2Iter (a : ℝ) (m h_ : List (Option ℝ)) :
    ℕ → List (Option ℝ) → Option (List (Option ℝ))
  | 0, O => some O
  | k + 1, O =>
    match l2ClaimStep a m h_ O with
    | none => none
    | some O' => l2Iter a m h_ k O'

end

/-! ### Cross-validated regularizer selection (`LRFisterGrid`)

`LRFisterGrid.fit` drives `sklearn.model_selection.GridSearchCV` (an
external collaborator, specified in §4.6/§6 of the spec) over the
`LRFisterDeconvolve` estimator, with the scoring functions of the
repository's `deconvolution_metrics` module (not present under `src/`,
also modelled from the spec). -/

/-- Sequencing a fallible map over a list: fails iff any element fails
(a failing fold or grid point aborts the whole search). -/
def seqMap {α β : Type} (g : α → Option β) : List α → Option (List β)
  | [] => some []
  | a :: as =>
    match g a, seqMap g as with
    | some b, some bs => some (b :: bs)
    | _, _ => none

noncomputable section

/-- Modelled from the spec: `deconvolution_metrics.neg_reconvolved_mse`
(module not under `src/`) — "negative MSE between reconvolved signal and
held-out averaged measurement". -/
def negReconvolvedMse (est : FitRes ℝ) (Xtest : List (List ℝ)) : Option ℝ :=
  (mseOpt est.reconvolved_y_ (rowMean Xtest)).map fun v => -v

/-- Modelled from the spec: `deconvolution_metrics.neg_deconvolved_mse`
(module not under `src/`) — "negative MSE between deconvolved signal and
ground truth". -/
def negDeconvolvedMse (g : List ℝ) (est : FitRes ℝ) (_Xtest : List (List ℝ)) :
    Option ℝ :=
  (mseOpt est.deconvolved_y_ g).map fun v => -v

/-- The named scoring dictionary built by `LRFisterGrid.fit`
(lines 35-40): the `deconvolved` metric is included only when a ground
truth signal was supplied; `reconvolved` is always present (and last). -/
def metricsFor (gt : Option (List ℝ)) :
    List (String × (FitRes ℝ → List (List ℝ) → Option ℝ)) :=
  match gt with
  | some g => [("deconvolved", negDeconvolvedMse g), ("reconvolved", negReconvolvedMse)]
  | none => [("reconvolved", negReconvolvedMse)]

/-- Modelled from the spec: the engine partitions the batch rows into
`k` folds; here fold `i` holds the rows whose index is `i` modulo `k`. -/
def foldTest (k i : ℕ) (X : List (List ℝ)) : List (List ℝ) :=
  (X.enum.filter fun p => p.1 % k == i).map fun p => p.2

/-- The training rows complementary to `foldTest`. -/
def foldTrain (k i : ℕ) (X : List (List ℝ)) : List (List ℝ) :=
  (X.enum.filter fun p => p.1 % k != i).map fun p => p.2

/-- Modelled from the spec: one fold of cross-validation at one grid
point — fit a fresh estimator on the training rows, then evaluate every
named metric on the held-out rows and (for the train-score table) on the
training rows.  Returns the `(test, train)` score pairs in metric
order. -/
def foldPair (x h_ : List ℝ) (N : ℕ) (gt : Option (List ℝ)) (k : ℕ)
    (X : List (List ℝ)) (w : ℝ) (i : ℕ) : Option (List (ℝ × ℝ)) :=
  match fitFisterRes x h_ N w (foldTrain k i X) with
  | none => none
  | some est =>
    seqMap (fun nf =>
      match nf.2 est (foldTest k i X), nf.2 est (foldTrain k i X) with
      | some a, some b => some (a, b)
      | _, _ => none) (metricsFor gt)

/-- All `k` folds at one grid point. -/
def widthFoldTable (x h_ : List ℝ) (N : ℕ) (gt : Option (List ℝ)) (k : ℕ)
    (X : List (List ℝ)) (w : ℝ) : Option (List (List (ℝ × ℝ))) :=
  seqMap (foldPair x h_ N gt k X w) (List.range k)

/-- The whole grid: each width paired with its fold table. -/
def scoreTable (x h_ : List ℝ) (N : ℕ) (gt : Option (List ℝ)) (k : ℕ)
    (X : List (List ℝ)) (grid : List ℝ) :
    Option (List (ℝ × List (List (ℝ × ℝ)))) :=
  seqMap (fun w => (widthFoldTable x h_ N gt k X w).map fun tb => (w, tb)) grid

/-- `np.std` of a list of scores (population standard deviation). -/
def listStd (l : List ℝ) : ℝ :=
  Real.sqrt (listMean (l.map fun v => (v - listMean l) ^ 2))

/-- Mean test score of metric `j` at one grid-table entry. -/
def entryMeanTest (j : ℕ) (e : ℝ × List (List (ℝ × ℝ))) : ℝ :=
  listMean (e.2.map fun fold => (fold.getD j (0, 0)).1)

/-- Standard deviation of the test scores of metric `j`. -/
def entryStdTest (j : ℕ) (e : ℝ × List (List (ℝ × ℝ))) : ℝ :=
  listStd (e.2.map fun fold => (fold.getD j (0, 0)).1)

/-- Mean train score of metric `j`. -/
def entryMeanTrain (j : ℕ) (e : ℝ × List (List (ℝ × ℝ))) : ℝ :=
  listMean (e.2.map fun fold => (fold.getD j (0, 0)).2)

/-- Standard deviation of the train scores of metric `j`. -/
def entryStdTrain (j : ℕ) (e : ℝ × List (List (ℝ × ℝ))) : ℝ :=
  listStd (e.2.map fun fold => (fold.getD j (0, 0)).2)

/-- First maximiser of `f` over a list (ties keep the earlier element,
matching an engine that returns the first best grid point). -/
def argmaxBy {α : Type} (f : α → ℝ) : List α → Option α
  | [] => none
  | a :: t => some (t.foldl (fun b z => if f b < f z then z else b) a)

/-- The `cv_results_` table: for every metric, mean and standard
deviation of its test and train scores at every grid point. -/
def cvTable (metrics : List (String × (FitRes ℝ → List (List ℝ) → Option ℝ)))
    (table : List (ℝ × List (List (ℝ × ℝ)))) : List (String × List ℝ) :=
  metrics.enum.flatMap fun p =>
    [("mean_test_" ++ p.2.1, table.map (entryMeanTest p.1)),
     ("std_test_" ++ p.2.1, table.map (entryStdTest p.1)),
     ("mean_train_" ++ p.2.1, table.map (entryMeanTrain p.1)),
     ("std_train_" ++ p.2.1, table.map (entryStdTrain p.1))]

/-- The outcome of a grid search: the selected width, the estimator
refit with it on the full batch, and the score table. -/
structure GridSearchRes where
  best_width : ℝ
  best_estimator_ : FitRes ℝ
  cv_results_ : List (String × List ℝ)

/-- Modelled from the spec: `GridSearchCV` with `refit='reconvolved'` —
scores every grid point on every fold, selects the grid point whose mean
held-out `reconvolved` score is maximal (the `reconvolved` metric is the
last in the scoring dictionary), refits a fresh estimator with the
winning width on the full batch, and exposes the per-grid-point
mean/std table.  A failing fold aborts the whole search. -/
def fisterGridSearch (x h_ : List ℝ) (N k : ℕ) (gt : Option (List ℝ))
    (grid : List ℝ) (X : List (List ℝ)) : Option GridSearchRes :=
  match scoreTable x h_ N gt k X grid with
  | none => none
  | some table =>
    match argmaxBy (entryMeanTest ((metricsFor gt).length - 1)) table with
    | none => none
    | some best =>
      match fitFisterRes x h_ N best.1 X with
      | none => none
      | some bestEst => some ⟨best.1, bestEst, cvTable (metricsFor gt) table⟩

/-- The mean held-out `reconvolved` score of one width, as the selection
rule sees it. -/
def meanTestReconv (x h_ : List ℝ) (N k : ℕ) (gt : Option (List ℝ))
    (X : List (List ℝ)) (w : ℝ) : Option ℝ :=
  (widthFoldTable x h_ N gt k X w).map fun tb =>
    entryMeanTest ((metricsFor gt).length - 1) (w, tb)

/-- The attributes stored by `LRFisterGrid.fit` (lines 52-61). -/
structure GridRes where
  measured_y_ : List ℝ
  deconvolved_y_ : List ℝ
  reconvolved_y_ : List ℝ
  gridsearch_cv_results_ : List (String × List ℝ)
  deconvolved_mse_ : List ℝ
  deconvolved_mse_std_ : List ℝ
  reconvolved_mse_ : List ℝ
  reconvolved_mse_std_ : List ℝ
  cv_ : List ℝ
  cv_std_ : List ℝ

/-- `LRFisterGrid.fit` (lines 25-62), seen through the value it returns:
run the grid search (5 folds), store the batch mean, the winner's
deconvolved signal and its reconvolution, the full score table, and the
negated/plain statistics rows — reading the `deconvolved` columns
unconditionally (lines 56-57), then the train and test `reconvolved`
columns.  A missing key raises `KeyError` (`none`).  This view reports
only whether the call completes and, on success, the full attribute set;
the attribute writes that persist on the instance when the call raises
midway are captured by `gridFitSt` below. -/
def gridFitModel (x h_ : List ℝ) (grid : List ℝ) (N : ℕ) (gt : Option (List ℝ))
    (X : List (List ℝ)) : Option GridRes :=
  (fisterGridSearch x h_ N 5 gt grid X).bind fun gs =>
  (gs.cv_results_.lookup "mean_test_deconvolved").bind fun mtd =>
  (gs.cv_results_.lookup "std_test_deconvolved").bind fun stdd =>
  (gs.cv_results_.lookup "mean_train_reconvolved").bind fun mtrr =>
  (gs.cv_results_.lookup "std_train_reconvolved").bind fun strr =>
  (gs.cv_results_.lookup "mean_test_reconvolved").bind fun mter =>
  (gs.cv_results_.lookup "std_test_reconvolved").map fun ster =>
  ⟨rowMean X, gs.best_estimator_.deconvolved_y_,
   convValid gs.best_estimator_.deconvolved_y_ h_,
   gs.cv_results_,
   mtd.map fun v => -1 * v, stdd,
   mtrr.map fun v => -1 * v, strr,
   mter.map fun v => -1 * v, ster⟩

end

/-- The mutable attributes of an `LRFisterGrid` instance; `none` models
an attribute that was never set (reading it raises `AttributeError`).
Python attribute writes that happen before an exception persist, so
`fit` is also modelled as a state transformer over this record. -/
structure GridSt where
  measured_y_ : Option (List ℝ)
  deconvolved_y_ : Option (List ℝ)
  reconvolved_y_ : Option (List ℝ)
  gridsearch_cv_results_ : Option (List (String × List ℝ))
  deconvolved_mse_ : Option (List ℝ)
  deconvolved_mse_std_ : Option (List ℝ)
  reconvolved_mse_ : Option (List ℝ)
  reconvolved_mse_std_ : Option (List ℝ)
  cv_ : Option (List ℝ)
  cv_std_ : Option (List ℝ)

/-- A freshly constructed, never-fit `LRFisterGrid` instance. -/
def gridStFresh : GridSt :=
  ⟨none, none, none, none, none, none, none, none, none, none⟩

noncomputable section

/-- `LRFisterGrid.fit` as a state transformer, one assignment per line
of the source (lines 51-62): the grid search runs first (a failure
there leaves the instance untouched); then lines 52-55 store the batch
mean, the winner's deconvolved signal, its reconvolution and the full
`cv_results_` table; each of lines 56-61 then looks a column up and
assigns — a missing key raises `KeyError` at that line, and every
assignment already made persists.  The boolean reports whether `fit`
completed. -/
def gridFitSt (x h_ : List ℝ) (grid : List ℝ) (N : ℕ) (gt : Option (List ℝ))
    (X : List (List ℝ)) (s : GridSt) : GridSt × Bool :=
  match fisterGridSearch x h_ N 5 gt grid X with
  | none => (s, false)
  | some gs =>
    let s1 := { s with
      measured_y_ := some (rowMean X)
      deconvolved_y_ := some gs.best_estimator_.deconvolved_y_
      reconvolved_y_ := some (convValid gs.best_estimator_.deconvolved_y_ h_)
      gridsearch_cv_results_ := some gs.cv_results_ }
    match gs.cv_results_.lookup "mean_test_deconvolved" with
    | none => (s1, false)
    | some mtd =>
      let s2 := { s1 with deconvolved_mse_ := some (mtd.map fun v => -1 * v) }
      match gs.cv_results_.lookup "std_test_deconvolved" with
      | none => (s2, false)
      | some stdd =>
        let s3 := { s2 with deconvolved_mse_std_ := some stdd }
        match gs.cv_results_.lookup "mean_train_reconvolved" with
        | none => (s3, false)
        | some mtrr =>
          let s4 := { s3 with reconvolved_mse_ := some (mtrr.map fun v => -1 * v) }
          match gs.cv_results_.lookup "std_train_reconvolved" with
          | none => (s4, false)
          | some strr =>
            let s5 := { s4 with reconvolved_mse_std_ := some strr }
            match gs.cv_results_.lookup "mean_test_reconvolved" with
            | none => (s5, false)
            | some mter =>
              let s6 := { s5 with cv_ := some (mter.map fun v => -1 * v) }
              match gs.cv_results_.lookup "std_test_reconvolved" with
              | none => (s6, false)
              | some ster => ({ s6 with cv_std_ := some ster }, true)

end

noncomputable section

/-- Concrete batch used to exercise the grid-search model. -/
def gridWitnessX : List (List ℝ) := [[1], [1], [1], [1], [1]]

/-- The score table the grid search produces on `gridWitnessX`. -/
def gridWitnessCv : List (String × List ℝ) :=
  [("mean_test_deconvolved", [0]), ("std_test_deconvolved", [0]),
   ("mean_train_deconvolved", [0]), ("std_train_deconvolved", [0]),
   ("mean_test_reconvolved", [0]), ("std_test_reconvolved", [0]),
   ("mean_train_reconvolved", [0]), ("std_train_reconvolved", [0])]

/-- The grid-search outcome on `gridWitnessX`. -/
def gridWitnessGs : GridSearchRes := ⟨1, ⟨[1], [1], [1]⟩, gridWitnessCv⟩

/-- The fitted `LRFisterGrid` attributes on `gridWitnessX`. -/
def gridWitnessR : GridRes :=
  ⟨[1], [1], [1], gridWitnessCv, [0], [0], [0], [0], [0], [0]⟩

/-- The score table the grid search produces on `gridWitnessX` when no
ground truth is supplied (only the `reconvolved` columns exist). -/
def gridWitnessCvNone : List (String × List ℝ) :=
  [("mean_test_reconvolved", [0]), ("std_test_reconvolved", [0]),
   ("mean_train_reconvolved", [0]), ("std_train_reconvolved", [0])]

/-- The grid-search outcome on `gridWitnessX` without ground truth. -/
def gridWitnessGsNone : GridSearchRes := ⟨1, ⟨[1], [1], [1]⟩, gridWitnessCvNone⟩

end

/-! ### Theorems -/

/-! ### General lemmas about the embedded kernel -/

theorem convFull_length {α : Type} [Field α] (a b : List α) :
    (convFull a b).length = a.length + b.length - 1 := by
  simp [convFull]

theorem convValid_length {α : Type} [Field α] (a b : List α) :
    (convValid a b).length =
      (a.length + b.length - 1) - 2 * (min a.length b.length - 1) := by
  simp only [convValid, List.length_take, List.length_drop, convFull_length]
  omega

theorem bcast_eq_len {α : Type} [Field α] (f : α → α → α) (a b : List α)
    (h1 : a.length = b.length) : bcast f a b = some (List.zipWith f a b) := by
  simp [bcast, h1]

theorem bcast_right_one {α : Type} [Field α] (f : α → α → α) (a b : List α)
    (h1 : a.length ≠ b.length) (h2 : b.length = 1) :
    bcast f a b = some (a.map fun v => f v (b.getD 0 0)) := by
  unfold bcast
  rw [if_neg h1, if_pos h2]

theorem bcast_left_one {α : Type} [Field α] (f : α → α → α) (a b : List α)
    (h1 : a.length ≠ b.length) (h2 : b.length ≠ 1) (h3 : a.length = 1) :
    bcast f a b = some (b.map fun v => f (a.getD 0 0) v) := by
  unfold bcast
  rw [if_neg h1, if_neg h2, if_pos h3]

theorem bcast_none {α : Type} [Field α] (f : α → α → α) (a b : List α)
    (h1 : a.length ≠ b.length) (h2 : b.length ≠ 1) (h3 : a.length ≠ 1) :
    bcast f a b = none := by
  unfold bcast
  rw [if_neg h1, if_neg h2, if_neg h3]

theorem lrGo_succ_stepnone {α : Type} [Field α] (h_ : List α) (gt : Option (List α))
    (m O : List α) (k : ℕ) (hstep : lrStep m h_ O = none) :
    lrGo h_ gt m (k + 1) O = none := by
  simp [lrGo, hstep]

theorem lrGo_succ_statsfail {α : Type} [Field α] (h_ : List α) (gt : Option (List α))
    (m O O' : List α) (k : ℕ) (hstep : lrStep m h_ O = some O')
    (hstats : statsOk h_ m gt O' = false) :
    lrGo h_ gt m (k + 1) O = none := by
  simp [lrGo, hstep, hstats]

theorem lrGo_recur {α : Type} [Field α] (h_ : List α) (gt : Option (List α)) (m : List α) :
    ∀ (k : ℕ) (O v : List α), lrGo h_ gt m k O = some v → lrRecur m h_ k O = some v := by
  intro k
  induction k with
  | zero => intro O v h; simpa [lrGo, lrRecur] using h
  | succ n ih =>
    intro O v h
    cases hs : lrStep m h_ O with
    | none => simp [lrGo, hs] at h
    | some O' =>
      simp only [lrGo, hs] at h
      by_cases hok : statsOk h_ m gt O' = true
      · rw [if_pos hok] at h
        simp only [lrRecur, hs]
        exact ih O' v h
      · rw [if_neg hok] at h
        simp at h

theorem lrRecur_fixed {α : Type} [Field α] (m h_ O : List α)
    (hfix : lrStep m h_ O = some O) : ∀ k, lrRecur m h_ k O = some O := by
  intro k
  induction k with
  | zero => simp [lrRecur]
  | succ n ih => simp [lrRecur, hfix, ih]
/-- C1: for every measured signal (the row-wise mean of the batch `X`),
impulse response and iteration count `N ≥ 1`, a successful
`LRDeconvolve.fit` stores as deconvolved signal exactly the value `O_N`
of the spec's recurrence started from the default initial estimate
`O_0 = m`, run for exactly `N` iterations with no convergence check,
and stores `m` and the reconvolution of `O_N` alongside it. -/
theorem c1_fit_is_lr_recurrence (h_ : List ℚ) (gt : Option (List ℚ)) (N : ℕ)
    (X : List (List ℚ)) (r : FitRes ℚ) (hN : 1 ≤ N)
    (hfit : fitLR h_ gt N X = some r) :
    r.measured_y_ = rowMean X ∧
    lrRecur (rowMean X) h_ N (rowMean X) = some r.deconvolved_y_ ∧
    r.reconvolved_y_ = convValid r.deconvolved_y_ h_ := by
  simp only [fitLR] at hfit
  cases hlr : lr N h_ gt (rowMean X) with
  | none => rw [hlr] at hfit; simp at hfit
  | some d =>
    rw [hlr] at hfit
    simp only [Option.map_some', Option.some.injEq] at hfit
    subst hfit
    unfold lr at hlr
    rw [if_neg (by omega)] at hlr
    exact ⟨rfl, lrGo_recur h_ gt (rowMean X) N (rowMean X) d hlr, rfl⟩

/-- Witness for C1 at a concrete input. -/
theorem c1_fit_is_lr_recurrence_witness :
    1 ≤ 1 ∧ fitLR ([2] : List ℚ) none 1 [[4]] = some ⟨[4], [4], [8]⟩ ∧
    ((⟨[4], [4], [8]⟩ : FitRes ℚ).measured_y_ = rowMean [[4]] ∧
     lrRecur (rowMean [[4]]) [2] 1 (rowMean [[4]]) =
       some (⟨[4], [4], [8]⟩ : FitRes ℚ).deconvolved_y_ ∧
     (⟨[4], [4], [8]⟩ : FitRes ℚ).reconvolved_y_ =
       convValid (⟨[4], [4], [8]⟩ : FitRes ℚ).deconvolved_y_ [2]) :=
  ⟨le_refl 1,
   by norm_num [fitLR, lr, lrGo, lrStep, statsOk, convValid, convFull, bcast,
     rowMean, natCastF, List.range_succ],
   c1_fit_is_lr_recurrence [2] none 1 [[4]] ⟨[4], [4], [8]⟩ (le_refl 1)
     (by norm_num [fitLR, lr, lrGo, lrStep, statsOk, convValid, convFull, bcast,
       rowMean, natCastF, List.range_succ])⟩

/-- C7: valid-mode convolution of arrays of lengths `m ≥ n ≥ 1` has
length `m - n + 1`; and whenever the elementwise ratio `measured / I_1`
of the first kernel iteration pairs arrays of unequal lengths, `_LR`
fails on that iteration (either numpy refuses to broadcast the ratio, or
the iteration's telemetry MSE rejects the reconstruction length) and
returns no result.  Since a run whose first ratio is equal-length keeps
all shapes stationary, this settles every iteration. -/
theorem c7_shape_rules :
    (∀ (a b : List ℚ), b ≠ [] → b.length ≤ a.length →
        (convValid a b).length = a.length - b.length + 1) ∧
    (∀ (h_ m : List ℚ) (gt : Option (List ℚ)) (N : ℕ), 1 ≤ N → m ≠ [] → h_ ≠ [] →
        m.length ≠ (convValid m h_).length → lr N h_ gt m = none) := by
  constructor
  · intro a b hb hle
    have hb1 : 1 ≤ b.length := List.length_pos.mpr hb
    have := convValid_length a b
    omega
  · intro h_ m gt N hN hm hh hlen
    obtain ⟨k, rfl⟩ : ∃ k, N = k + 1 := ⟨N - 1, by omega⟩
    have hL : 1 ≤ m.length := List.length_pos.mpr hm
    have hn : 1 ≤ h_.length := List.length_pos.mpr hh
    have hJ := convValid_length m h_
    unfold lr
    rw [if_neg (by omega)]
    by_cases hJ1 : (convValid m h_).length = 1
    · -- the ratio broadcasts its length-1 divisor; telemetry then rejects
      have hLn : m.length = h_.length := by omega
      have hL2 : 2 ≤ m.length := by omega
      have hblur := bcast_right_one (· / ·) m (convValid m h_) (by omega) hJ1
      set blur := m.map fun v => v / (convValid m h_).getD 0 0 with hblurdef
      have hblen : blur.length = m.length := by simp [hblurdef]
      have hcorr : (convValid blur h_.reverse).length = 1 := by
        rw [convValid_length]
        simp only [hblen, List.length_reverse]
        omega
      have hOnew := bcast_right_one (· * ·) m (convValid blur h_.reverse) (by omega) hcorr
      set Onew := m.map fun v => v * (convValid blur h_.reverse).getD 0 0 with hOnewdef
      have hOnewlen : Onew.length = m.length := by simp [hOnewdef]
      have hstep : lrStep m h_ m = some Onew := by
        simp only [lrStep, hblur, hOnew]
      have hrecon : (convValid Onew h_).length = 1 := by
        rw [convValid_length]
        simp only [hOnewlen]
        omega
      have hstats : statsOk h_ m gt Onew = false := by
        have hbeq : ((convValid Onew h_).length == m.length) = false := by
          rw [beq_eq_false_iff_ne]
          omega
        simp [statsOk, hbeq]
      exact lrGo_succ_statsfail h_ gt m m Onew k hstep hstats
    · by_cases hL1 : m.length = 1
      · -- length-1 measured signal broadcasts; telemetry then rejects
        have hn2 : 2 ≤ h_.length := by omega
        have hJn : (convValid m h_).length = h_.length := by omega
        have hblur := bcast_left_one (· / ·) m (convValid m h_) (by omega) hJ1 hL1
        set blur := (convValid m h_).map fun v => m.getD 0 0 / v with hblurdef
        have hblen : blur.length = h_.length := by simp [hblurdef, hJn]
        have hcorr : (convValid blur h_.reverse).length = 1 := by
          rw [convValid_length]
          simp only [hblen, List.length_reverse]
          omega
        have hOnew := bcast_eq_len (· * ·) m (convValid blur h_.reverse) (by omega)
        set Onew := List.zipWith (· * ·) m (convValid blur h_.reverse) with hOnewdef
        have hOnewlen : Onew.length = 1 := by
          simp only [hOnewdef, List.length_zipWith]
          omega
        have hstep : lrStep m h_ m = some Onew := by
          simp only [lrStep, hblur, hOnew]
        have hstats : statsOk h_ m gt Onew = false := by
          have hrecon : (convValid Onew h_).length = h_.length := by
            rw [convValid_length]
            simp only [hOnewlen]
            omega
          have hbeq : ((convValid Onew h_).length == m.length) = false := by
            rw [beq_eq_false_iff_ne]
            omega
          simp [statsOk, hbeq]
        exact lrGo_succ_statsfail h_ gt m m Onew k hstep hstats
      · -- numpy cannot broadcast the ratio at all
        have hb := bcast_none (· / ·) m (convValid m h_) hlen hJ1 hL1
        have hstep : lrStep m h_ m = none := by
          simp only [lrStep, hb]
        exact lrGo_succ_stepnone h_ gt m m k hstep

/-- Witness for C7 at concrete inputs: `convValid` of lengths 3 and 2
has length 2, and the kernel with a length-2 impulse response on a
length-3 measured signal fails on the first iteration. -/
theorem c7_shape_rules_witness :
    (convValid ([1, 2, 3] : List ℚ) [1, 1]).length = 3 - 2 + 1 ∧
    lr 1 ([1, 1] : List ℚ) none [1, 2, 1] = none :=
  ⟨c7_shape_rules.1 [1, 2, 3] [1, 1] (by simp) (by simp),
   c7_shape_rules.2 [1, 1] [1, 2, 1] none 1 (le_refl 1) (by simp) (by simp)
     (by norm_num [convValid_length])⟩

/-- C6 counterexample: an `LRDeconvolve` instance (impulse response
`[1/4, 1/2, 1/4]`, one iteration) is fit successfully on `[[1, 2]]`;
a second `fit` on `[[1, 1, 1]]` fails (telemetry shape validation), yet
afterwards the instance still carries the failed call's measured signal
together with the FIRST fit's deconvolved and reconvolved signals, and
`predict` returns that stale deconvolved signal instead of failing:
Unfit semantics are not restored. -/
theorem c6_counterexample :
    fitSt ([1/4, 1/2, 1/4] : List ℚ) none 1 freshLR [[1, 2]] =
      (⟨some [1, 2], some [9/10, 21/10], some [39/40, 51/40]⟩, true) ∧
    fitSt ([1/4, 1/2, 1/4] : List ℚ) none 1
        ⟨some [1, 2], some [9/10, 21/10], some [39/40, 51/40]⟩ [[1, 1, 1]] =
      (⟨some [1, 1, 1], some [9/10, 21/10], some [39/40, 51/40]⟩, false) ∧
    predictSt ⟨some [1, 1, 1], some [9/10, 21/10], some [39/40, 51/40]⟩ [[1, 1, 1]] =
      some [9/10, 21/10] := by
  refine ⟨?_, ?_, rfl⟩ <;>
    norm_num [fitSt, freshLR, lr, lrGo, lrStep, statsOk, convValid, convFull,
      bcast, rowMean, natCastF, List.range_succ]

/-- C6 (amended): when the kernel run inside `fit` fails, the exception
propagates after line 88 has already stored the new measured signal, so
the instance keeps that partial write and the previous fitted results;
`predict`/`score` continue to expose whatever was stored before. -/
theorem c6_failed_fit_keeps_state (h_ : List ℚ) (gt : Option (List ℚ)) (N : ℕ)
    (s : LRSt) (X : List (List ℚ)) (hfail : lr N h_ gt (rowMean X) = none) :
    (fitSt h_ gt N s X).2 = false ∧
    (fitSt h_ gt N s X).1.measured_y_ = some (rowMean X) ∧
    (fitSt h_ gt N s X).1.deconvolved_y_ = s.deconvolved_y_ ∧
    (fitSt h_ gt N s X).1.reconvolved_y_ = s.reconvolved_y_ ∧
    (∀ Y, predictSt (fitSt h_ gt N s X).1 Y = s.deconvolved_y_) := by
  simp [fitSt, predictSt, hfail]

/-- Witness for the amended C6 at a concrete failed fit. -/
theorem c6_failed_fit_keeps_state_witness :
    lr 1 ([1, 1] : List ℚ) none (rowMean [[1, 2, 1]]) = none ∧
    ((fitSt ([1, 1] : List ℚ) none 1 freshLR [[1, 2, 1]]).2 = false ∧
     (fitSt ([1, 1] : List ℚ) none 1 freshLR [[1, 2, 1]]).1.measured_y_ =
       some (rowMean [[1, 2, 1]]) ∧
     (fitSt ([1, 1] : List ℚ) none 1 freshLR [[1, 2, 1]]).1.deconvolved_y_ =
       freshLR.deconvolved_y_ ∧
     (fitSt ([1, 1] : List ℚ) none 1 freshLR [[1, 2, 1]]).1.reconvolved_y_ =
       freshLR.reconvolved_y_ ∧
     (∀ Y, predictSt (fitSt ([1, 1] : List ℚ) none 1 freshLR [[1, 2, 1]]).1 Y =
       freshLR.deconvolved_y_)) :=
  have hfail : lr 1 ([1, 1] : List ℚ) none (rowMean [[1, 2, 1]]) = none := by
    norm_num [lr, lrGo, lrStep, convValid, convFull, bcast, rowMean, natCastF,
      List.range_succ]
  ⟨hfail, c6_failed_fit_keeps_state [1, 1] none 1 freshLR [[1, 2, 1]] hfail⟩

/-- C8: on a freshly constructed instance, `predict` and `score` fail
for every argument (the fitted attributes do not exist); after a
successful `fit`, `predict` ignores its argument and always returns the
stored deconvolved signal, and `score` returns the negative mean squared
error between the row-wise mean of the test batch and the stored
reconvolved signal (whenever the two have equal lengths, which sklearn
requires). -/
theorem c8_state_machine (h_ : List ℚ) (gt : Option (List ℚ)) (N : ℕ)
    (X Xt : List (List ℚ)) (s : LRSt) (r : List ℚ)
    (hfit : fitSt h_ gt N freshLR X = (s, true))
    (hr : s.reconvolved_y_ = some r)
    (hlen : r.length = (rowMean Xt).length) :
    (∀ Y, predictSt freshLR Y = none) ∧
    (∀ Y, scoreSt freshLR Y = none) ∧
    (∀ Y Z, predictSt s Y = predictSt s Z) ∧
    (∃ d, s.deconvolved_y_ = some d ∧ ∀ Y, predictSt s Y = some d) ∧
    scoreSt s Xt =
      some (-((List.zipWith (fun u v => (u - v) ^ 2) r (rowMean Xt)).sum /
        natCastF r.length)) := by
  refine ⟨fun Y => rfl, fun Y => rfl, fun Y Z => rfl, ?_, ?_⟩
  · simp only [fitSt] at hfit
    cases hlr : lr N h_ gt (rowMean X) with
    | none => rw [hlr] at hfit; simp at hfit
    | some d =>
      rw [hlr] at hfit
      simp only [Prod.mk.injEq] at hfit
      obtain ⟨rfl, -⟩ := hfit
      exact ⟨d, rfl, fun Y => rfl⟩
  · simp [scoreSt, hr, mseOpt, hlen]

/-- Witness for C8 at a concrete fitted instance. -/
theorem c8_state_machine_witness :
    fitSt ([2] : List ℚ) none 1 freshLR [[4]] =
      (⟨some [4], some [4], some [8]⟩, true) ∧
    (⟨some [4], some [4], some [8]⟩ : LRSt).reconvolved_y_ = some [8] ∧
    ([8] : List ℚ).length = (rowMean ([[6]] : List (List ℚ))).length ∧
    ((∀ Y, predictSt freshLR Y = none) ∧
     (∀ Y, scoreSt freshLR Y = none) ∧
     (∀ Y Z, predictSt (⟨some [4], some [4], some [8]⟩ : LRSt) Y =
        predictSt ⟨some [4], some [4], some [8]⟩ Z) ∧
     (∃ d, (⟨some [4], some [4], some [8]⟩ : LRSt).deconvolved_y_ = some d ∧
        ∀ Y, predictSt ⟨some [4], some [4], some [8]⟩ Y = some d) ∧
     scoreSt ⟨some [4], some [4], some [8]⟩ [[6]] =
       some (-((List.zipWith (fun u v => (u - v) ^ 2) ([8] : List ℚ)
          (rowMean ([[6]] : List (List ℚ)))).sum /
            natCastF ([8] : List ℚ).length))) :=
  have hfit : fitSt ([2] : List ℚ) none 1 freshLR [[4]] =
      (⟨some [4], some [4], some [8]⟩, true) := by
    norm_num [fitSt, freshLR, lr, lrGo, lrStep, statsOk, convValid, convFull,
      bcast, rowMean, natCastF, List.range_succ]
  ⟨hfit, rfl, by simp [rowMean],
   c8_state_machine [2] none 1 [[4]] [[6]] ⟨some [4], some [4], some [8]⟩ [8]
     hfit rfl (by simp [rowMean])⟩
/-- C9 counterexample: in the claimed scenario the premise is already
false — `convolve([0,0,1,0,0], [1/4,1/2,1/4], 'valid')` is
`[1/4, 1/2, 1/4]`, not `[1/4, 3/4, 1/4]` — and, independently, the
plain kernel run for 50 iterations on the claimed measured signal
produces no estimate at all: its first iteration raises inside the
telemetry MSE (reconstruction length 1 against measured length 3), so
no `O_50` with the claimed reconvolution error exists. -/
theorem c9_counterexample :
    ¬ (convValid ([0, 0, 1, 0, 0] : List ℚ) [1/4, 1/2, 1/4] = [1/4, 3/4, 1/4]) ∧
    ¬ (∃ O, lr 50 ([1/4, 1/2, 1/4] : List ℚ) none [1/4, 3/4, 1/4] = some O ∧
        ∃ v, mseOpt (convValid O [1/4, 1/2, 1/4]) ([1/4, 3/4, 1/4] : List ℚ) = some v ∧
          v ≤ 1/1000) := by
  constructor
  · intro hM
    norm_num [convValid, convFull, List.range_succ] at hM
  · rintro ⟨O, hO, -⟩
    have hnone : lr 50 ([1/4, 1/2, 1/4] : List ℚ) none [1/4, 3/4, 1/4] = none := by
      have h1 : lrGo ([1/4, 1/2, 1/4] : List ℚ) none [1/4, 3/4, 1/4] (49 + 1)
          [1/4, 3/4, 1/4] = none := by
        refine lrGo_succ_statsfail _ _ _ _ [1/4, 3/4, 1/4] _ ?_ ?_
        · norm_num [lrStep, convValid, convFull, bcast, List.range_succ]
        · norm_num [statsOk, convValid, convFull, List.range_succ]
      simpa [lr] using h1
    rw [hnone] at hO
    exact Option.noConfusion hO

/-- C9 (amended): the measured signal in the scenario is actually
`[1/4, 1/2, 1/4]`; started from the claimed `[1/4, 3/4, 1/4]` (or from
the correct measured signal) the recurrence is at a fixed point from the
very first iteration, so `O_50 = O_0`; the reconvolution of `O_50` is a
single value (`[1/2]`, resp. `[3/8]`), so the sklearn MSE against the
length-3 measured signal is undefined, the pointwise squared deviation
is `1/16`, far above `10^-3`; and the full kernel (with its telemetry)
fails on iteration 1 instead of producing `O_50`. -/
theorem c9_amended_scenario :
    convValid ([0, 0, 1, 0, 0] : List ℚ) [1/4, 1/2, 1/4] = [1/4, 1/2, 1/4] ∧
    lr 50 ([1/4, 1/2, 1/4] : List ℚ) none [1/4, 3/4, 1/4] = none ∧
    lrRecur ([1/4, 3/4, 1/4] : List ℚ) [1/4, 1/2, 1/4] 50 [1/4, 3/4, 1/4] =
      some [1/4, 3/4, 1/4] ∧
    lrRecur ([1/4, 1/2, 1/4] : List ℚ) [1/4, 1/2, 1/4] 50 [1/4, 1/2, 1/4] =
      some [1/4, 1/2, 1/4] ∧
    convValid ([1/4, 3/4, 1/4] : List ℚ) [1/4, 1/2, 1/4] = [1/2] ∧
    convValid ([1/4, 1/2, 1/4] : List ℚ) [1/4, 1/2, 1/4] = [3/8] ∧
    mseOpt ([1/2] : List ℚ) [1/4, 3/4, 1/4] = none ∧
    (([1/4, 3/4, 1/4] : List ℚ).map fun v => (v - 1/2) ^ 2) =
      [1/16, 1/16, 1/16] ∧
    (1 : ℚ)/1000 < 1/16 := by
  refine ⟨?_, ?_, ?_, ?_, ?_, ?_, ?_, ?_, by norm_num⟩
  · norm_num [convValid, convFull, List.range_succ]
  · have h1 : lrGo ([1/4, 1/2, 1/4] : List ℚ) none [1/4, 3/4, 1/4] (49 + 1)
        [1/4, 3/4, 1/4] = none := by
      refine lrGo_succ_statsfail _ _ _ _ [1/4, 3/4, 1/4] _ ?_ ?_
      · norm_num [lrStep, convValid, convFull, bcast, List.range_succ]
      · norm_num [statsOk, convValid, convFull, List.range_succ]
    simpa [lr] using h1
  · exact lrRecur_fixed _ _ _
      (by norm_num [lrStep, convValid, convFull, bcast, List.range_succ]) 50
  · exact lrRecur_fixed _ _ _
      (by norm_num [lrStep, convValid, convFull, bcast, List.range_succ]) 50
  · norm_num [convValid, convFull, List.range_succ]
  · norm_num [convValid, convFull, List.range_succ]
  · norm_num [mseOpt]
  · norm_num

theorem sum_map_div (l : List ℝ) (s : ℝ) :
    (l.map fun v => v / s).sum = l.sum / s := by
  induction l with
  | nil => simp
  | cons a t ih => simp [ih, add_div]

theorem normalizedGaussian_sum (x : List ℝ) (mu sig : ℝ) (hx : x ≠ []) :
    (normalizedGaussian x mu sig).sum = 1 := by
  unfold normalizedGaussian
  set g := x.map fun xi => Real.exp ((-1/2) * ((xi - mu) / sig) ^ 2) with hg
  have hpos : 0 < g.sum := by
    apply List.sum_pos
    · intro v hv
      rw [hg] at hv
      obtain ⟨xi, -, rfl⟩ := List.mem_map.mp hv
      exact Real.exp_pos _
    · simp [hg, hx]
  rw [sum_map_div]
  exact div_self (ne_of_gt hpos)

theorem lrFisterGo_eq_iter (x h_ : List ℝ) (w : ℝ) (m : List ℝ) :
    ∀ (k : ℕ) (O : List ℝ), lrFisterGo x h_ w m k O = fisterIter x h_ w m k O := by
  intro k
  induction k with
  | zero => intro O; rfl
  | succ n ih =>
    intro O
    cases hb : bcast (· / ·) m (convValid O h_) with
    | none => simp [lrFisterGo, fisterIter, fisterClaimStep, lrStep, hb]
    | some blur =>
      cases hc : bcast (· * ·) O (convValid blur h_.reverse) with
      | none => simp [lrFisterGo, fisterIter, fisterClaimStep, lrStep, hb, hc]
      | some cur =>
        simp only [lrFisterGo, fisterIter, fisterClaimStep, lrStep, hb, hc,
          Option.map_some']
        exact ih _

/-- C2: each iteration of `LRFisterDeconvolve` is the plain
Lucy-Richardson multiplicative update followed by valid-mode convolution
with the normalized Gaussian kernel evaluated on the impulse-response
`x` domain, centred at that domain's mean, with standard deviation equal
to the regularizer width; the Gaussian's entries sum to 1; and the
deconvolved signal stored by `fit` is the estimate after exactly `N`
such combined steps started from the measured signal. -/
theorem c2_fister_structure (x h_ : List ℝ) (w : ℝ) (N : ℕ) (X : List (List ℝ))
    (hx : x ≠ []) (_hw : w ≠ 0) (hN : 1 ≤ N) :
    (normalizedGaussian x (listMean x) w).sum = 1 ∧
    (∀ (k : ℕ) (m O : List ℝ), lrFisterGo x h_ w m k O = fisterIter x h_ w m k O) ∧
    (fitFisterRes x h_ N w X).map (fun r => r.deconvolved_y_) =
      fisterIter x h_ w (rowMean X) N (rowMean X) := by
  refine ⟨normalizedGaussian_sum x _ w hx,
    fun k m O => lrFisterGo_eq_iter x h_ w m k O, ?_⟩
  have hmap : (fitFisterRes x h_ N w X).map (fun r => r.deconvolved_y_) =
      lrFister N x h_ w (rowMean X) := by
    unfold fitFisterRes
    cases hl : lrFister N x h_ w (rowMean X) <;> simp [hl]
  rw [hmap]
  unfold lrFister
  rw [if_neg (by omega)]
  exact lrFisterGo_eq_iter x h_ w (rowMean X) N (rowMean X)

/-- Witness for C2 at a concrete configuration. -/
theorem c2_fister_structure_witness :
    ([0] : List ℝ) ≠ [] ∧ (1 : ℝ) ≠ 0 ∧ 1 ≤ 1 ∧
    ((normalizedGaussian [0] (listMean [0]) 1).sum = 1 ∧
     lrFisterGo [0] [1] 1 [1] 1 [1] = fisterIter [0] [1] 1 [1] 1 [1] ∧
     (fitFisterRes [0] [1] 1 1 [[1]]).map (fun r => r.deconvolved_y_) =
       fisterIter [0] [1] 1 (rowMean [[1]]) 1 (rowMean [[1]])) :=
  have h := c2_fister_structure [0] [1] 1 1 [[1]] (by simp) one_ne_zero (le_refl 1)
  ⟨by simp, one_ne_zero, le_refl 1, h.1, h.2.1 1 [1] [1], h.2.2⟩

theorem lrl2Go_eq_iter (a : ℝ) (m h_ : List (Option ℝ)) :
    ∀ (k : ℕ) (O : List (Option ℝ)), lrl2Go a m h_ k O = l2Iter a m h_ k O := by
  intro k
  induction k with
  | zero => intro O; rfl
  | succ n ih =>
    intro O
    cases hb : nbcast ndiv m (nconvValid O h_) with
    | none => simp [lrl2Go, l2Iter, l2ClaimStep, nlrStep, hb]
    | some blur =>
      cases hc : nbcast nmul O (nconvValid blur h_.reverse) with
      | none => simp [lrl2Go, l2Iter, l2ClaimStep, nlrStep, hb, hc]
      | some cur =>
        simp only [lrl2Go, l2Iter, l2ClaimStep, nlrStep, hb, hc, Option.map_some']
        exact ih _

/-- C3: each iteration of `LRL2Deconvolve` applies the plain
Lucy-Richardson multiplicative update and then replaces every element
`O` of the updated estimate by `(-1 + sqrt(1 + 2*alpha*O)) / alpha`
before the next iteration; equivalently, `_LRL2` is the `N`-fold
iteration of exactly that composed step, started from the measured
signal. -/
theorem c3_l2_structure (a : ℝ) (_ha : a ≠ 0) (m h_ : List (Option ℝ)) (N : ℕ)
    (hN : 1 ≤ N) :
    (∀ (k : ℕ) (O : List (Option ℝ)), lrl2Go a m h_ k O = l2Iter a m h_ k O) ∧
    (∀ O, l2ClaimStep a m h_ O = (nlrStep m h_ O).map fun cur => cur.map (l2elem a)) ∧
    lrl2 N a h_ m = l2Iter a m h_ N m := by
  refine ⟨lrl2Go_eq_iter a m h_, fun O => rfl, ?_⟩
  unfold lrl2
  rw [if_neg (by omega)]
  exact lrl2Go_eq_iter a m h_ N m

/-- Witness for C3 at a concrete configuration. -/
theorem c3_l2_structure_witness :
    (1 : ℝ) ≠ 0 ∧ 1 ≤ 1 ∧
    (lrl2Go 1 [some 1] [some 1] 1 [some 1] = l2Iter 1 [some 1] [some 1] 1 [some 1] ∧
     l2ClaimStep 1 [some 1] [some 1] [some 1] =
       (nlrStep [some 1] [some 1] [some 1]).map (fun cur => cur.map (l2elem 1)) ∧
     lrl2 1 1 [some 1] [some 1] = l2Iter 1 [some 1] [some 1] 1 [some 1]) :=
  have h := c3_l2_structure 1 one_ne_zero [some 1] [some 1] 1 (le_refl 1)
  ⟨one_ne_zero, le_refl 1, h.1 1 [some 1], h.2.1 [some 1], h.2.2⟩

/-- C4 counterexample: with impulse response `[1]`, `alpha = 1`, one
iteration and batch `[[-1]]`, the first updated estimate is `[-1]`, its
radicand `1 + 2*1*(-1) = -1` is negative — yet `fit` does not fail: it
returns a result whose deconvolved and reconvolved signals consist of a
silently propagated NaN (`np.sqrt` of a negative only warns). -/
theorem c4_counterexample :
    fitL2 [1] 1 1 [[-1]] = some ([none], [none]) := by
  norm_num [fitL2, lrl2, lrl2Go, nbcast, nconvValid, nconvFull, nsum, nadd,
    nmul, ndiv, l2elem, rowMean, natCastF, List.range_succ]

/-- C4 (amended): a negative radicand does not raise — `np.sqrt` returns
NaN with only a warning, so the correction maps such an element to NaN,
NaN elements stay NaN, and the fit completes with NaN propagating
silently into its result (see the counterexample for a full run). -/
theorem c4_l2_nan_propagates (a x : ℝ) (hx : 1 + 2 * a * x < 0) :
    l2elem a (some x) = none ∧ l2elem a none = none := by
  constructor
  · simp [l2elem, hx]
  · simp [l2elem]

/-- Witness for the amended C4. -/
theorem c4_l2_nan_propagates_witness :
    1 + 2 * (1 : ℝ) * (-1) < 0 ∧
    (l2elem 1 (some (-1)) = none ∧ l2elem 1 none = none) :=
  have hx : 1 + 2 * (1 : ℝ) * (-1) < 0 := by norm_num
  ⟨hx, c4_l2_nan_propagates 1 (-1) hx⟩

theorem lookup_cvTable_reconvolved_only
    (f : FitRes ℝ → List (List ℝ) → Option ℝ)
    (table : List (ℝ × List (List (ℝ × ℝ)))) :
    (cvTable [("reconvolved", f)] table).lookup "mean_test_deconvolved" = none := by
  simp [cvTable, List.lookup, List.enum]

theorem gs_gt_none_lookup_deconvolved (x h_ : List ℝ) (grid : List ℝ)
    (N : ℕ) (X : List (List ℝ)) (gs : GridSearchRes)
    (hgs : fisterGridSearch x h_ N 5 none grid X = some gs) :
    gs.cv_results_.lookup "mean_test_deconvolved" = none := by
  have hcv : ∃ table, gs.cv_results_ = cvTable (metricsFor none) table := by
    unfold fisterGridSearch at hgs
    split at hgs
    · exact absurd hgs (by simp)
    · split at hgs
      · exact absurd hgs (by simp)
      · split at hgs
        · exact absurd hgs (by simp)
        · simp only [Option.some.injEq] at hgs
          exact ⟨_, by rw [← hgs]⟩
  obtain ⟨table, htab⟩ := hcv
  rw [htab]
  exact lookup_cvTable_reconvolved_only _ table

theorem gridFit_none_of_gt_none (x h_ : List ℝ) (grid : List ℝ)
    (N : ℕ) (X : List (List ℝ)) :
    gridFitModel x h_ grid N none X = none := by
  unfold gridFitModel
  cases hgs : fisterGridSearch x h_ N 5 none grid X with
  | none => rfl
  | some gs =>
    have hlook := gs_gt_none_lookup_deconvolved x h_ grid N X gs hgs
    simp [hlook]

/-- When no ground truth is supplied, `fit` (as a state transformer)
never completes: if the grid search itself fails, the instance is
untouched; if it succeeds, exactly the writes of lines 52-55 persist
(batch mean, winner's deconvolved signal, its reconvolution, the full
`cv_results_` table) and the `KeyError` at line 56 leaves the six
summary attributes as they were. -/
theorem gridFitSt_gt_none (x h_ : List ℝ) (grid : List ℝ) (N : ℕ)
    (X : List (List ℝ)) (s : GridSt) :
    (gridFitSt x h_ grid N none X s).2 = false ∧
    (fisterGridSearch x h_ N 5 none grid X = none →
      (gridFitSt x h_ grid N none X s).1 = s) ∧
    (∀ gs, fisterGridSearch x h_ N 5 none grid X = some gs →
      (gridFitSt x h_ grid N none X s).1 =
        { s with
          measured_y_ := some (rowMean X)
          deconvolved_y_ := some gs.best_estimator_.deconvolved_y_
          reconvolved_y_ := some (convValid gs.best_estimator_.deconvolved_y_ h_)
          gridsearch_cv_results_ := some gs.cv_results_ }) := by
  cases hgs : fisterGridSearch x h_ N 5 none grid X with
  | none =>
    refine ⟨?_, fun _ => ?_, fun gs hgs2 => absurd hgs2 (by simp)⟩
    · simp [gridFitSt, hgs]
    · simp [gridFitSt, hgs]
  | some gs =>
    have hlook := gs_gt_none_lookup_deconvolved x h_ grid N X gs hgs
    refine ⟨?_, fun hgs2 => absurd hgs2 (by simp), fun gs2 hgs2 => ?_⟩
    · simp [gridFitSt, hgs, hlook]
    · have hgseq : gs2 = gs := (Option.some.inj hgs2).symm
      subst hgseq
      simp [gridFitSt, hgs, hlook]

theorem seqMap_sound {α β : Type} (g : α → Option β) :
    ∀ (l : List α) (t : List β), seqMap g l = some t →
      (∀ a ∈ l, ∃ b ∈ t, g a = some b) ∧ (∀ b ∈ t, ∃ a ∈ l, g a = some b) := by
  intro l
  induction l with
  | nil =>
    intro t h
    simp only [seqMap, Option.some.injEq] at h
    subst h
    simp
  | cons a as ih =>
    intro t h
    simp only [seqMap] at h
    cases hga : g a with
    | none => rw [hga] at h; simp at h
    | some b =>
      rw [hga] at h
      cases hs : seqMap g as with
      | none => rw [hs] at h; simp at h
      | some bs =>
        rw [hs] at h
        simp only [Option.some.injEq] at h
        subst h
        obtain ⟨ihf, ihb⟩ := ih bs hs
        constructor
        · intro a' ha'
          rcases List.mem_cons.mp ha' with rfl | has
          · exact ⟨b, List.mem_cons_self b bs, hga⟩
          · obtain ⟨b', hb', hgb'⟩ := ihf a' has
            exact ⟨b', List.mem_cons_of_mem b hb', hgb'⟩
        · intro b' hb'
          rcases List.mem_cons.mp hb' with rfl | hbs
          · exact ⟨a, List.mem_cons_self a as, hga⟩
          · obtain ⟨a', ha', hga'⟩ := ihb b' hbs
            exact ⟨a', List.mem_cons_of_mem a ha', hga'⟩

theorem foldl_argmax_spec {α : Type} (f : α → ℝ) :
    ∀ (l : List α) (a : α),
      (l.foldl (fun b z => if f b < f z then z else b) a = a ∨
        l.foldl (fun b z => if f b < f z then z else b) a ∈ l) ∧
      f a ≤ f (l.foldl (fun b z => if f b < f z then z else b) a) ∧
      ∀ z ∈ l, f z ≤ f (l.foldl (fun b z => if f b < f z then z else b) a) := by
  intro l
  induction l with
  | nil => intro a; simp
  | cons c t ih =>
    intro a
    simp only [List.foldl_cons]
    obtain ⟨hmem, hle, hall⟩ := ih (if f a < f c then c else a)
    have haa : f a ≤ f (if f a < f c then c else a) := by
      split
      · exact le_of_lt (by assumption)
      · exact le_refl _
    have hca : f c ≤ f (if f a < f c then c else a) := by
      split
      · exact le_refl _
      · exact le_of_not_lt (by assumption)
    refine ⟨?_, le_trans haa hle, ?_⟩
    · rcases hmem with h | h
      · rw [h]
        split
        · exact Or.inr (List.mem_cons_self c t)
        · exact Or.inl rfl
      · exact Or.inr (List.mem_cons_of_mem c h)
    · intro z hz
      rcases List.mem_cons.mp hz with rfl | hzt
      · exact le_trans hca hle
      · exact hall z hzt

theorem argmaxBy_spec {α : Type} (f : α → ℝ) (l : List α) (b : α)
    (h : argmaxBy f l = some b) : b ∈ l ∧ ∀ z ∈ l, f z ≤ f b := by
  cases l with
  | nil => simp [argmaxBy] at h
  | cons a t =>
    simp only [argmaxBy, Option.some.injEq] at h
    subst h
    obtain ⟨hmem, hle, hall⟩ := foldl_argmax_spec f t a
    constructor
    · rcases hmem with h | h
      · rw [h]; exact List.mem_cons_self a t
      · exact List.mem_cons_of_mem a h
    · intro z hz
      rcases List.mem_cons.mp hz with rfl | hzt
      · exact hle
      · exact hall z hzt

/-- C5: when a ground truth is supplied, `LRFisterGrid.fit` selects the
regularizer width whose mean held-out `reconvolved` score across the
folds is maximal — the `deconvolved` metric is computed and reported but
plays no role in the selection, which maximises `entryMeanTest` of the
`reconvolved` column only; the estimator is then refit with the winning
width on the full batch, and the instance stores that winner's
deconvolved signal, its reconvolution with the impulse response, and the
per-grid-point mean/std score table.  When ground truth is absent (the
constructor default) `fit` never completes: the final two conjuncts show
that on the same batch and grid the call always fails, and that when the
grid search itself succeeded, the attribute writes of lines 52-55 (batch
mean, winner's deconvolved signal, its reconvolution, the full
`cv_results_` table) persist on the instance while the `KeyError` of
line 56 leaves the six summary attributes untouched. -/
theorem c5_grid_selection (x h_ : List ℝ) (grid : List ℝ) (N : ℕ) (g : List ℝ)
    (X : List (List ℝ)) (gs : GridSearchRes) (r : GridRes)
    (hgs : fisterGridSearch x h_ N 5 (some g) grid X = some gs)
    (hr : gridFitModel x h_ grid N (some g) X = some r) :
    gs.best_width ∈ grid ∧
    (∀ w ∈ grid, ∀ sw, meanTestReconv x h_ N 5 (some g) X w = some sw →
      ∃ sb, meanTestReconv x h_ N 5 (some g) X gs.best_width = some sb ∧ sw ≤ sb) ∧
    fitFisterRes x h_ N gs.best_width X = some gs.best_estimator_ ∧
    r.measured_y_ = rowMean X ∧
    r.deconvolved_y_ = gs.best_estimator_.deconvolved_y_ ∧
    r.reconvolved_y_ = convValid gs.best_estimator_.deconvolved_y_ h_ ∧
    r.gridsearch_cv_results_ = gs.cv_results_ ∧
    (∃ mt, gs.cv_results_.lookup "mean_test_reconvolved" = some mt ∧
      r.cv_ = mt.map fun v => -1 * v) ∧
    (∃ st, gs.cv_results_.lookup "std_test_reconvolved" = some st ∧
      r.cv_std_ = st) ∧
    (∀ s : GridSt, (gridFitSt x h_ grid N none X s).2 = false) ∧
    (∀ (s : GridSt) (gs2 : GridSearchRes),
      fisterGridSearch x h_ N 5 none grid X = some gs2 →
      (gridFitSt x h_ grid N none X s).1 =
        { s with
          measured_y_ := some (rowMean X)
          deconvolved_y_ := some gs2.best_estimator_.deconvolved_y_
          reconvolved_y_ := some (convValid gs2.best_estimator_.deconvolved_y_ h_)
          gridsearch_cv_results_ := some gs2.cv_results_ }) := by
  have hgs0 := hgs
  unfold fisterGridSearch at hgs
  split at hgs
  · exact absurd hgs (by simp)
  rename_i table ht
  split at hgs
  · exact absurd hgs (by simp)
  rename_i best hb
  split at hgs
  · exact absurd hgs (by simp)
  rename_i bestEst hf
  simp only [Option.some.injEq] at hgs
  subst hgs
  obtain ⟨hfwd, hbwd⟩ := seqMap_sound _ grid table ht
  obtain ⟨hbmem, hbmax⟩ := argmaxBy_spec _ table best hb
  obtain ⟨wb, hwb, hwbfn⟩ := hbwd best hbmem
  rw [Option.map_eq_some'] at hwbfn
  obtain ⟨tbb, htbb, hbeq⟩ := hwbfn
  have hbw1 : best.1 = wb := by rw [← hbeq]
  have hbw2 : best.2 = tbb := by rw [← hbeq]
  have hbestmem : best.1 ∈ grid := by rw [hbw1]; exact hwb
  have hbestscore : meanTestReconv x h_ N 5 (some g) X best.1 =
      some (entryMeanTest ((metricsFor (some g)).length - 1) best) := by
    unfold meanTestReconv
    rw [hbw1, htbb, Option.map_some']
    rw [← hbw1, ← hbw2]
  have hrfacts :
      r.measured_y_ = rowMean X ∧
      r.deconvolved_y_ = bestEst.deconvolved_y_ ∧
      r.reconvolved_y_ = convValid bestEst.deconvolved_y_ h_ ∧
      r.gridsearch_cv_results_ = cvTable (metricsFor (some g)) table ∧
      (∃ mt, (cvTable (metricsFor (some g)) table).lookup "mean_test_reconvolved" =
          some mt ∧ r.cv_ = mt.map fun v => -1 * v) ∧
      (∃ st, (cvTable (metricsFor (some g)) table).lookup "std_test_reconvolved" =
          some st ∧ r.cv_std_ = st) := by
    unfold gridFitModel at hr
    rw [hgs0] at hr
    simp only [Option.some_bind] at hr
    cases h1 : (cvTable (metricsFor (some g)) table).lookup "mean_test_deconvolved" with
    | none => rw [h1] at hr; simp at hr
    | some mtd =>
    rw [h1] at hr
    simp only [Option.some_bind] at hr
    cases h2 : (cvTable (metricsFor (some g)) table).lookup "std_test_deconvolved" with
    | none => rw [h2] at hr; simp at hr
    | some stdd =>
    rw [h2] at hr
    simp only [Option.some_bind] at hr
    cases h3 : (cvTable (metricsFor (some g)) table).lookup "mean_train_reconvolved" with
    | none => rw [h3] at hr; simp at hr
    | some mtrr =>
    rw [h3] at hr
    simp only [Option.some_bind] at hr
    cases h4 : (cvTable (metricsFor (some g)) table).lookup "std_train_reconvolved" with
    | none => rw [h4] at hr; simp at hr
    | some strr =>
    rw [h4] at hr
    simp only [Option.some_bind] at hr
    cases h5 : (cvTable (metricsFor (some g)) table).lookup "mean_test_reconvolved" with
    | none => rw [h5] at hr; simp at hr
    | some mter =>
    rw [h5] at hr
    simp only [Option.some_bind] at hr
    cases h6 : (cvTable (metricsFor (some g)) table).lookup "std_test_reconvolved" with
    | none => rw [h6] at hr; simp at hr
    | some ster =>
    rw [h6] at hr
    simp only [Option.map_some', Option.some.injEq] at hr
    subst hr
    exact ⟨rfl, rfl, rfl, rfl, ⟨mter, rfl, rfl⟩, ⟨ster, rfl, rfl⟩⟩
  refine ⟨hbestmem, ?_, hf, hrfacts.1, hrfacts.2.1, hrfacts.2.2.1,
    hrfacts.2.2.2.1, hrfacts.2.2.2.2.1, hrfacts.2.2.2.2.2,
    fun s => (gridFitSt_gt_none x h_ grid N X s).1,
    fun s gs2 hgs2 => (gridFitSt_gt_none x h_ grid N X s).2.2 gs2 hgs2⟩
  intro w hw sw hsw
  unfold meanTestReconv at hsw
  rw [Option.map_eq_some'] at hsw
  obtain ⟨tb, htb, hswv⟩ := hsw
  obtain ⟨e, he, hefn⟩ := hfwd w hw
  rw [Option.map_eq_some'] at hefn
  obtain ⟨tb', htb', heeq⟩ := hefn
  have htbtb : tb' = tb := Option.some.inj (htb'.symm.trans htb)
  subst htbtb
  refine ⟨entryMeanTest ((metricsFor (some g)).length - 1) best, hbestscore, ?_⟩
  rw [← hswv, heeq]
  exact hbmax e he

set_option maxHeartbeats 1000000 in
theorem gridWitness_gs_eval :
    fisterGridSearch [0] [1] 1 5 (some [1]) [1] gridWitnessX = some gridWitnessGs := by
  norm_num [gridWitnessX, gridWitnessGs, gridWitnessCv, fisterGridSearch,
    scoreTable, widthFoldTable, foldPair, foldTest, foldTrain, List.enum,
    List.enumFrom, metricsFor, seqMap, negDeconvolvedMse, negReconvolvedMse,
    mseOpt, fitFisterRes, lrFister, lrFisterGo, normalizedGaussian, listMean,
    bcast, convValid, convFull, rowMean, natCastF, List.range_succ,
    Real.exp_zero, argmaxBy, cvTable, entryMeanTest, entryStdTest,
    entryMeanTrain, entryStdTrain, listStd, Real.sqrt_zero]
  exact ⟨rfl, rfl, rfl, rfl, rfl, rfl, rfl, rfl⟩

theorem gridWitness_fit_eval :
    gridFitModel [0] [1] [1] 1 (some [1]) gridWitnessX = some gridWitnessR := by
  unfold gridFitModel
  rw [gridWitness_gs_eval]
  simp only [Option.some_bind,
    show gridWitnessGs.cv_results_.lookup "mean_test_deconvolved" = some [0] from rfl,
    show gridWitnessGs.cv_results_.lookup "std_test_deconvolved" = some [0] from rfl,
    show gridWitnessGs.cv_results_.lookup "mean_train_reconvolved" = some [0] from rfl,
    show gridWitnessGs.cv_results_.lookup "std_train_reconvolved" = some [0] from rfl,
    show gridWitnessGs.cv_results_.lookup "mean_test_reconvolved" = some [0] from rfl,
    show gridWitnessGs.cv_results_.lookup "std_test_reconvolved" = some [0] from rfl,
    Option.map_some']
  norm_num [gridWitnessGs, gridWitnessCv, gridWitnessR, gridWitnessX,
    convValid, convFull, rowMean, natCastF, List.range_succ]

/-- C10: with no ground truth supplied, the scoring dictionary passed to
the grid search contains only the `reconvolved` metric, yet
`LRFisterGrid.fit` unconditionally reads the `mean_test_deconvolved`
column of the results table; every such `fit` call therefore fails
before completing, whatever the batch or the grid — `fit` can only
succeed when a ground truth signal is supplied. -/
theorem c10_grid_fit_requires_ground_truth (x h_ : List ℝ) (grid : List ℝ)
    (N : ℕ) (X : List (List ℝ)) :
    gridFitModel x h_ grid N none X = none :=
  gridFit_none_of_gt_none x h_ grid N X

/-- C5 counterexample: `ground_truth_y` defaults to `None`, and on such
an instance `LRFisterGrid.fit` stores nothing at all — here on a batch
and grid on which the search itself succeeds (see the C5 witness), the
fit still fails while reading the `deconvolved` score columns, so the
claim's unconditional selection-and-storage behaviour is false. -/
theorem gridWitness_gs_none_eval :
    fisterGridSearch [0] [1] 1 5 none [1] gridWitnessX = some gridWitnessGsNone := by
  norm_num [gridWitnessX, gridWitnessGsNone, gridWitnessCvNone, fisterGridSearch,
    scoreTable, widthFoldTable, foldPair, foldTest, foldTrain, List.enum,
    List.enumFrom, metricsFor, seqMap, negDeconvolvedMse, negReconvolvedMse,
    mseOpt, fitFisterRes, lrFister, lrFisterGo, normalizedGaussian, listMean,
    bcast, convValid, convFull, rowMean, natCastF, List.range_succ,
    Real.exp_zero, argmaxBy, cvTable, entryMeanTest, entryStdTest,
    entryMeanTrain, entryStdTrain, listStd, Real.sqrt_zero]
  exact ⟨rfl, rfl, rfl, rfl⟩

/-- C5 counterexample: `ground_truth_y` defaults to `None`, and on such
an instance `LRFisterGrid.fit` never completes — here on a batch and
grid on which the grid search itself succeeds, the call raises while
reading the `deconvolved` score columns (line 56), after the writes of
lines 52-55 have stored the batch mean, the winner's deconvolved and
reconvolved signals and the full `cv_results_` table on the instance;
the six mean/std summary attributes stay unset.  The claim's
unconditional select-refit-store-and-complete behaviour is therefore
false. -/
theorem c5_grid_selection_counterexample :
    gridFitModel [0] [1] [1] 1 none gridWitnessX = none ∧
    gridFitSt [0] [1] [1] 1 none gridWitnessX gridStFresh =
      ({ gridStFresh with
          measured_y_ := some [1]
          deconvolved_y_ := some [1]
          reconvolved_y_ := some [1]
          gridsearch_cv_results_ := some gridWitnessCvNone }, false) := by
  refine ⟨gridFit_none_of_gt_none [0] [1] [1] 1 gridWitnessX, ?_⟩
  have h2 := (gridFitSt_gt_none [0] [1] [1] 1 gridWitnessX gridStFresh).2.2
    gridWitnessGsNone gridWitness_gs_none_eval
  have h1 := (gridFitSt_gt_none [0] [1] [1] 1 gridWitnessX gridStFresh).1
  rw [Prod.ext_iff]
  refine ⟨?_, h1⟩
  rw [h2]
  norm_num [gridWitnessGsNone, gridWitnessX, rowMean, natCastF, convValid,
    convFull, List.range_succ]

/-- Witness for C5 on a concrete batch, grid and ground truth. -/
theorem c5_grid_selection_witness :
    fisterGridSearch [0] [1] 1 5 (some [1]) [1] gridWitnessX = some gridWitnessGs ∧
    gridFitModel [0] [1] [1] 1 (some [1]) gridWitnessX = some gridWitnessR ∧
    (gridWitnessGs.best_width ∈ ([1] : List ℝ) ∧
     (∀ w ∈ ([1] : List ℝ), ∀ sw,
        meanTestReconv [0] [1] 1 5 (some [1]) gridWitnessX w = some sw →
        ∃ sb, meanTestReconv [0] [1] 1 5 (some [1]) gridWitnessX
            gridWitnessGs.best_width = some sb ∧ sw ≤ sb) ∧
     fitFisterRes [0] [1] 1 gridWitnessGs.best_width gridWitnessX =
       some gridWitnessGs.best_estimator_ ∧
     gridWitnessR.measured_y_ = rowMean gridWitnessX ∧
     gridWitnessR.deconvolved_y_ = gridWitnessGs.best_estimator_.deconvolved_y_ ∧
     gridWitnessR.reconvolved_y_ =
       convValid gridWitnessGs.best_estimator_.deconvolved_y_ [1] ∧
     gridWitnessR.gridsearch_cv_results_ = gridWitnessGs.cv_results_ ∧
     (∃ mt, gridWitnessGs.cv_results_.lookup "mean_test_reconvolved" = some mt ∧
        gridWitnessR.cv_ = mt.map fun v => -1 * v) ∧
     (∃ st, gridWitnessGs.cv_results_.lookup "std_test_reconvolved" = some st ∧
        gridWitnessR.cv_std_ = st) ∧
     (∀ s : GridSt, (gridFitSt [0] [1] [1] 1 none gridWitnessX s).2 = false) ∧
     (∀ (s : GridSt) (gs2 : GridSearchRes),
        fisterGridSearch [0] [1] 1 5 none [1] gridWitnessX = some gs2 →
        (gridFitSt [0] [1] [1] 1 none gridWitnessX s).1 =
          { s with
            measured_y_ := some (rowMean gridWitnessX)
            deconvolved_y_ := some gs2.best_estimator_.deconvolved_y_
            reconvolved_y_ :=
              some (convValid gs2.best_estimator_.deconvolved_y_ [1])
            gridsearch_cv_results_ := some gs2.cv_results_ })) :=
  ⟨gridWitness_gs_eval, gridWitness_fit_eval,
   c5_grid_selection [0] [1] [1] 1 [1] gridWitnessX gridWitnessGs gridWitnessR
     gridWitness_gs_eval gridWitness_fit_eval⟩

